import Mathlib

/-!
Shallow embedding of the `componentize` repository, covering the code the
claims C1..C10 refer to:

* `src/deprecated/app/agent/tools.py` — the component store tools
  (`create_component`, `update_component`, `read_component`,
  `list_components`), the layout synthesis function `create_page`, and the
  dispatcher `process_tool_call`;
* `src/deprecated/app/agent/component_agent.py` — the agent loops
  (`generate_component`, `edit_component_streaming`).

Modelling conventions:
* The on-disk component directory is modelled as an association list from
  component name to file content (`Store`).  A Python file write is
  `writeStore`; `filepath.exists()` is `(alookup name store).isSome`.
  The environment-dependent absolute `filepath` strings in the returned
  dicts are omitted from the model; no claim mentions them.
* Python dicts returned by the tools are modelled by the `ToolResult`
  structure; fields that a given dict does not carry are `none`.
* A raised Python exception that escapes a function is modelled with
  `Except.error`; `str(KeyError(k))` is the string `'k'` (with ASCII
  quotes), mirroring CPython.
* Python `str.lower` / `str.isupper` coincide with `Char.toLower` /
  `Char.isUpper` on the ASCII data involved here.
* JSON numbers are modelled as integers (`Int`); none of the claims
  depends on non-integral numerics.
-/

/-- Substring test on char lists: `prefB p s` is true iff `p` is a prefix
of `s` (Python slicing comparison). -/
def prefB : List Char → List Char → Bool
  | [], _ => true
  | _ :: _, [] => false
  | a :: as, b :: bs => a = b && prefB as bs

/-- `infB p s` is true iff `p` occurs contiguously inside `s`; this is
Python's `p in s` on strings. -/
def infB (p : List Char) : List Char → Bool
  | [] => prefB p []
  | c :: rest => prefB p (c :: rest) || infB p rest

/-- Python's substring containment `p in s`. -/
def containsSub (s p : String) : Bool := infB p.data s.data

/-- Association-list lookup with decidable keys; models both Python dict
indexing (`d[k]` / `k in d`) and a file-existence test keyed by name. -/
def alookup {κ β : Type} [DecidableEq κ] (k : κ) : List (κ × β) → Option β
  | [] => none
  | (k', v) :: rest => if k' = k then some v else alookup k rest

/-- The generated-components directory: file name (component name) paired
with file content (source code). -/
def Store := List (String × String)

instance : DecidableEq Store := by
  unfold Store
  infer_instance

/-- Writing a file: replace the content stored under `name`, or add the
file if it is not present. -/
def writeStore (name code : String) : Store → Store
  | [] => [(name, code)]
  | (n, c) :: rest =>
    if n = name then (n, code) :: rest else (n, c) :: writeStore name code rest

/-- Result dict of one tool execution (`tools.py` returns plain dicts with
a `status` key and, depending on the tool and outcome, `message`,
`component_name`, `content`, `count` keys). -/
structure ToolResult where
  status : String
  message : Option String := none
  component_name : Option String := none
  content : Option String := none
  count : Option Nat := none
deriving DecidableEq, Repr

/-- Phrases whose presence in the lowercased code makes `create_component`
reject the code as explanatory text (tools.py line 37). -/
def prosePhrasesCreate : List String :=
  ["here is", "i have created", "i\x27ve created", "this component", "## "]

/-- Phrases whose presence in the lowercased code makes `update_component`
reject the code as explanatory text (tools.py line 92). -/
def prosePhrasesUpdate : List String :=
  ["here is", "i have updated", "i\x27ve updated", "the updated", "## "]

/-- Python `str.lower`, as the character-wise ASCII case mapping over the
string's characters. -/
def strLower (s : String) : String := ⟨s.data.map Char.toLower⟩

/-- `any(phrase in code_lower for phrase in phrases)`. -/
def looksLikeProse (phrases : List String) (code : String) : Bool :=
  phrases.any (fun p => containsSub (strLower code) p)

/-- tools.py lines 44 and 99: the code must contain `function`, `const`
(checked on the lowercased code) or `=>` (checked on the code as given). -/
def hasCodePattern (code : String) : Bool :=
  containsSub (strLower code) "function" || containsSub (strLower code) "const" ||
    containsSub code "=>"

/-- Error message shared by both mutation tools when the code looks like
explanatory text. -/
def proseMsg : String :=
  "The \x27code\x27 parameter should contain only the actual component code, not explanatory text. Please provide just the TypeScript/React code."

/-- Error message shared by both mutation tools when the code has none of
the function/const/arrow hallmarks. -/
def notCodeMsg : String :=
  "The code doesn\x27t appear to contain a valid React component. Please provide complete component code."

/-- Error message for an invalid component name in `create_component`. -/
def nameInvalidMsg : String :=
  "Component name must start with an uppercase letter"

/-- Error message when `create_component` hits an existing file. -/
def alreadyExistsMsg (name : String) : String :=
  "Component \x27" ++ name ++ "\x27 already exists. Use update_component to modify it."

/-- Success message of `create_component`. -/
def createdMsg (name : String) : String :=
  "Component \x27" ++ name ++ "\x27 created successfully"

/-- Error message when `update_component` does not find the file. -/
def updateNotFoundMsg (name : String) : String :=
  "Component \x27" ++ name ++ "\x27 not found. Use create_component to create it."

/-- Success message of `update_component`. -/
def updatedMsg (name : String) : String :=
  "Component \x27" ++ name ++ "\x27 updated successfully"

/-- Error message when `read_component` does not find the file. -/
def readNotFoundMsg (name : String) : String :=
  "Component \x27" ++ name ++ "\x27 not found"

/-- tools.py `create_component(name, code)`.  Checks, in source order:
name validity (line 28), prose phrases (line 37), code hallmarks
(line 44), existence (line 54); then writes the file. -/
def create_component (name code : String) (store : Store) :
    ToolResult × Store :=
  if name = "" ∨ ¬ (name.front.isUpper) then
    ({ status := "error", message := some nameInvalidMsg }, store)
  else if looksLikeProse prosePhrasesCreate code then
    ({ status := "error", message := some proseMsg }, store)
  else if ¬ hasCodePattern code then
    ({ status := "error", message := some notCodeMsg }, store)
  else if (alookup name store).isSome then
    ({ status := "error", message := some (alreadyExistsMsg name) }, store)
  else
    ({ status := "success", component_name := some name,
       message := some (createdMsg name) }, writeStore name code store)

/-- tools.py `update_component(name, code)`.  Checks, in source order:
prose phrases (line 92), code hallmarks (line 99), existence (line 107);
then overwrites the file. -/
def update_component (name code : String) (store : Store) :
    ToolResult × Store :=
  if looksLikeProse prosePhrasesUpdate code then
    ({ status := "error", message := some proseMsg }, store)
  else if ¬ hasCodePattern code then
    ({ status := "error", message := some notCodeMsg }, store)
  else if (alookup name store).isNone then
    ({ status := "error", message := some (updateNotFoundMsg name) }, store)
  else
    ({ status := "success", component_name := some name,
       message := some (updatedMsg name) }, writeStore name code store)

/-- tools.py `read_component(name)`: pure lookup, no store change. -/
def read_component (name : String) (store : Store) : ToolResult :=
  match alookup name store with
  | none => { status := "error", message := some (readNotFoundMsg name) }
  | some c =>
    { status := "success", component_name := some name, content := some c }

/-- tools.py `list_components()`: reports the number of component files
(the per-file name/filepath payload is not modelled; no claim uses it). -/
def list_components (store : Store) : ToolResult :=
  { status := "success", count := some store.length }

/-- tools.py `process_tool_call(tool_name, tool_input)`.  The dict
accesses `tool_input["name"]` / `tool_input["code"]` are not guarded by
any try/except inside this function, so a missing key raises `KeyError`
to the caller; that raise is the `Except.error` branch, carrying
`str(KeyError(key))`. -/
def process_tool_call (tool_name : String) (tool_input : List (String × String))
    (store : Store) : Except String (ToolResult × Store) :=
  if tool_name = "create_component" then
    match alookup "name" tool_input with
    | none => .error "\x27name\x27"
    | some n =>
      match alookup "code" tool_input with
      | none => .error "\x27code\x27"
      | some c => .ok (create_component n c store)
  else if tool_name = "update_component" then
    match alookup "name" tool_input with
    | none => .error "\x27name\x27"
    | some n =>
      match alookup "code" tool_input with
      | none => .error "\x27code\x27"
      | some c => .ok (update_component n c store)
  else if tool_name = "read_component" then
    match alookup "name" tool_input with
    | none => .error "\x27name\x27"
    | some n => .ok (read_component n store, store)
  else if tool_name = "list_components" then
    .ok (list_components store, store)
  else
    .ok ({ status := "error", message := some ("Unknown tool: " ++ tool_name) },
      store)

/-- The tool names advertised to the LLM in the `TOOLS` schema list. -/
def knownToolNames : List String :=
  ["create_component", "update_component", "read_component", "list_components"]

/-- Required arguments per the `TOOLS` schema (`required` field of each
input schema). -/
def requiredArgsPresent (tool_name : String)
    (tool_input : List (String × String)) : Bool :=
  if tool_name = "create_component" ∨ tool_name = "update_component" then
    (alookup "name" tool_input).isSome && (alookup "code" tool_input).isSome
  else if tool_name = "read_component" then
    (alookup "name" tool_input).isSome
  else
    true

/-! ## Layout synthesis (`create_page`, tools.py lines 197-351)

`create_page` receives the layout as a JSON string and immediately parses
it; the synthesis below is modelled on the parsed document.  JSON values
appearing as state-variable initial values are modelled by `JsonV`
(numbers as integers).  Fields that the source reads with a bare
`dict.get` (which may yield `None`) are `Option`-typed; fields that the
spec's §3 `InteractionSpec` declares as required strings (`eventType`,
`handlerName`, `code`) are plain strings. -/

/-- A JSON value usable as a state-variable `initialValue`. -/
inductive JsonV where
  | null
  | bool (b : Bool)
  | num (n : Int)
  | str (s : String)
deriving DecidableEq, Repr

/-- `json.dumps` escaping of one character inside a string literal
(control-character escapes beyond quote and backslash are not modelled;
no claim exercises them). -/
def jescChar (c : Char) : String :=
  if c = '"' then "\\\"" else if c = '\\' then "\\\\" else c.toString

/-- `json.dumps` of a `JsonV` value. -/
def jdump : JsonV → String
  | .null => "null"
  | .bool true => "true"
  | .bool false => "false"
  | .num n => toString n
  | .str s => "\"" ++ String.join (s.data.map jescChar) ++ "\""

/-- One entry of an interaction's `state` list:
`{name, type, initialValue}`, with `name` and `type` read via `dict.get`.
A missing `initialValue` reads as Python `None`, i.e. `JsonV.null`. -/
structure StateVar where
  name : Option String
  ty : Option String
  initialValue : JsonV
deriving DecidableEq, Repr

/-- One interaction bound to a layout item (`type`, `handlerName`,
`code`, `state`). -/
structure Interaction where
  ty : String
  handlerName : String
  code : String
  state : List StateVar
deriving DecidableEq, Repr

/-- One layout item.  `x`/`y` model `position.get('x', 0)` /
`position.get('y', 0)`; `width`/`height` model `size.get('width')` /
`size.get('height')` where a missing key yields `none`. -/
structure LayoutItem where
  componentName : Option String
  id : Option String
  x : Int
  y : Int
  width : Option Int
  height : Option Int
  interactions : List Interaction
deriving DecidableEq, Repr

/-- Python truthiness of an optional string (`if comp_name:`); `None` and
the empty string are falsy. -/
def truthyStr : Option String → Bool
  | none => false
  | some s => s ≠ ""

/-- Python truthiness of an optional number (`if width:`); `None` and `0`
are falsy. -/
def truthyInt : Option Int → Bool
  | none => false
  | some n => n ≠ 0

/-- Rendering of a Python value in an f-string where the source may hold
`None` (e.g. `f"<{comp_name} ..."`). -/
def pyStrOpt : Option String → String
  | none => "None"
  | some s => s

/-- The component names added to the `imports` set, in layout order:
`if comp_name: imports.add(comp_name)`. -/
def importNames (layout : List LayoutItem) : List String :=
  layout.filterMap fun item =>
    match item.componentName with
    | some n => if n = "" then none else some n
    | none => none

/-- `sorted(imports)`: the set is modelled as an enumeration list whose
duplicates are dropped; `sorted` is modelled by insertion sort under the
lexicographic string order. -/
def sortedImports (enum : List String) : List String :=
  List.insertionSort (· ≤ ·) enum.dedup

/-- An entry of the `all_state_vars` dict: variable name mapped to the
recorded `(type, initialValue)` pair. -/
def SVEntry := String × String × JsonV

instance : DecidableEq SVEntry := by
  unfold SVEntry
  infer_instance

/-- The state entries contributed by one `state` list, in order, keeping
only truthy names (`if var_name ...`), with `state_var.get('type', 'any')`
defaulting. -/
def svEntries (svs : List StateVar) : List SVEntry :=
  svs.filterMap fun sv =>
    match sv.name with
    | some n => if n = "" then none else some (n, sv.ty.getD "any", sv.initialValue)
    | none => none

/-- All truthy-named state-variable occurrences across the whole layout in
traversal order (items, then interactions, then state entries). -/
def allStateOccurrences (layout : List LayoutItem) : List SVEntry :=
  (layout.map fun item =>
    (item.interactions.map fun i => svEntries i.state).flatten).flatten

/-- Dict insertion guarded by `var_name not in all_state_vars`: keep the
table unchanged if the key is present, otherwise append at the end
(Python dicts preserve insertion order). -/
def insertNew (acc : List SVEntry) (e : SVEntry) : List SVEntry :=
  if (alookup e.1 acc).isSome then acc else acc ++ [e]

/-- The merged `all_state_vars` table (tools.py lines 230-239). -/
def collectStateVars (layout : List LayoutItem) : List SVEntry :=
  (allStateOccurrences layout).foldl insertNew []

/-- `'set' + var_name[0].upper() + var_name[1:]`. -/
def setterName (n : String) : String :=
  "set" ++ n.front.toUpper.toString ++ n.drop 1

/-- The `useState` declaration line emitted for one state-table entry
(tools.py line 272). -/
def declLine (e : SVEntry) : String :=
  "  const [" ++ e.1 ++ ", " ++ setterName e.1 ++ "] = useState(" ++
    jdump e.2.2 ++ ");"

/-- The state-declaration lines of the synthesized page, one per
surviving table entry in insertion order. -/
def stateDeclLines (layout : List LayoutItem) : List String :=
  (collectStateVars layout).map declLine

/-- Handler info stored in `all_handlers` (tools.py lines 243-247). -/
structure HandlerInfo where
  ty : String
  handlerName : String
  code : String
deriving DecidableEq, Repr

/-- The `all_handlers` dict, keyed by the raw `item.get('id')` (which may
be `None`). -/
def HandlerTable := List (Option String × List HandlerInfo)

instance : DecidableEq HandlerTable := by
  unfold HandlerTable
  infer_instance

/-- Dict assignment `d[k] = v`: overwrite in place, else append. -/
def setKey (tbl : HandlerTable) (k : Option String) (v : List HandlerInfo) :
    HandlerTable :=
  match tbl with
  | [] => [(k, v)]
  | (k', v') :: rest =>
    if k' = k then (k, v) :: rest else (k', v') :: setKey rest k v

/-- `d[k].append(h)`; the key is always present at the call sites. -/
def appendKey (tbl : HandlerTable) (k : Option String) (h : HandlerInfo) :
    HandlerTable :=
  match tbl with
  | [] => [(k, [h])]
  | (k', v') :: rest =>
    if k' = k then (k', v' ++ [h]) :: rest else (k', v') :: appendKey rest k h

/-- Building `all_handlers` (tools.py lines 223-247): an item with a
nonempty interaction list first resets its id's bucket to `[]`;
each interaction is appended only when the id is truthy. -/
def collectHandlers (layout : List LayoutItem) : HandlerTable :=
  layout.foldl
    (fun tbl item =>
      let tbl1 := if item.interactions.isEmpty then tbl else setKey tbl item.id []
      item.interactions.foldl
        (fun tbl2 i =>
          if truthyStr item.id then
            appendKey tbl2 item.id ⟨i.ty, i.handlerName, i.code⟩
          else tbl2)
        tbl1)
    []

/-- The handler-region lines: every handler's code split on newlines with
two spaces of indentation prepended (tools.py lines 278-285). -/
def handlerLines (tbl : HandlerTable) : List String :=
  (tbl.map fun kv =>
    (kv.2.map fun h => (h.code.splitOn "\n").map fun line => "  " ++ line).flatten).flatten

/-- The inline-style fragments for one item's absolutely positioned
wrapper (tools.py lines 306-311): `left`/`top` always, `width`/`height`
only when truthy. -/
def styleParts (item : LayoutItem) : List String :=
  ["left: " ++ toString item.x, "top: " ++ toString item.y] ++
    (match item.width with
     | some w => if w ≠ 0 then ["width: " ++ toString w] else []
     | none => []) ++
    (match item.height with
     | some h => if h ≠ 0 then ["height: " ++ toString h] else []
     | none => [])

/-- The event-handler props of one rendered component
(tools.py lines 314-319). -/
def itemProps (tbl : HandlerTable) (item : LayoutItem) : List String :=
  match alookup item.id tbl with
  | some hs => hs.map fun h => h.ty ++ "=\x7b" ++ h.handlerName ++ "\x7d"
  | none => []

/-- The three lines rendered for one layout item
(tools.py lines 325-329). -/
def renderItem (tbl : HandlerTable) (item : LayoutItem) : List String :=
  let style_str := String.intercalate ", " (styleParts item)
  let props := itemProps tbl item
  let props_str := if props.isEmpty then "" else " " ++ String.intercalate " " props
  ["      <div className=\"absolute\" style=\x7b\x7b " ++ style_str ++ " \x7d\x7d>",
   "        <" ++ pyStrOpt item.componentName ++ props_str ++ " />",
   "      </div>"]

/-- The synthesized page source, parameterised by the enumeration order
`enum` of the `imports` set (the only place where Python set iteration
enters; the code sorts it immediately). -/
def create_page_code_enum (page_name : String) (layout : List LayoutItem)
    (enum : List String) : String :=
  let svars := collectStateVars layout
  let tbl := collectHandlers layout
  let l1 : List String :=
    ["import \x7b useState \x7d from \x27react\x27;",
     "",
     "// Component imports - these are generated components from /generated/components/",
     "// Make sure the component files exist in the ../components/ directory"]
  let l2 := (sortedImports enum).map fun n =>
    "import " ++ n ++ " from \x27../components/" ++ n ++ "\x27;"
  let l3 := ["", "export default function " ++ page_name ++ "() \x7b"]
  let l4 :=
    if svars.isEmpty then []
    else ("  // State management" :: svars.map declLine) ++ [""]
  let l5 :=
    if tbl.isEmpty then []
    else ("  // Event handlers" :: handlerLines tbl) ++ [""]
  let l6 := ["  return (",
             "    <div className=\"relative w-full min-h-screen bg-gray-50\">"]
  let l7 := (layout.map (renderItem tbl)).flatten
  let l8 := ["    </div>", "  );", "\x7d", ""]
  String.intercalate "\n" (l1 ++ l2 ++ l3 ++ l4 ++ l5 ++ l6 ++ l7 ++ l8)

/-- tools.py `create_page` on a parsed layout document, with the
canonical set-enumeration order (first occurrence). -/
def create_page_code (page_name : String) (layout : List LayoutItem) : String :=
  create_page_code_enum page_name layout (importNames layout)

/-! ## Agent loops (`component_agent.py`)

The LLM boundary is modelled as a function from the current transcript to
a response; the agent loops below thread the transcript exactly as the
source appends to `messages`.  `max_iterations = 5` appears as the
initial fuel of the loop recursions (`while iteration < max_iterations`
with `iteration` starting at 0 executes the body at most five times, one
LLM call per execution).

The streaming variant `edit_component_streaming` is modelled as the
ordered trace of what the generator interleaves: `yield`ed events
(`TraceItem.ev`) and executed side effects (`TraceItem.act`: the store
reads, the LLM calls, the tool dispatches). -/

/-- One content block of an LLM response: plain text, or a tool-use
request carrying the tool name, its arguments and the call id. -/
inductive Block where
  | text (s : String)
  | toolUse (name : String) (input : List (String × String)) (id : String)
deriving DecidableEq, Repr

/-- An LLM response: the stop reason and the content blocks. -/
structure Response where
  stop_reason : String
  content : List Block
deriving DecidableEq, Repr

/-- One entry of the `messages` transcript: the seeded or corrective user
text, an assistant response, or the user turn carrying tool results
(pairs of `tool_use_id` and result). -/
inductive Msg where
  | user (s : String)
  | assistant (content : List Block)
  | toolResults (rs : List (String × ToolResult))
deriving DecidableEq, Repr

/-- Events yielded by `edit_component_streaming`. -/
inductive Ev where
  | progress (msg : String)
  | success (msg : String)
  | error (msg : String)
deriving DecidableEq, Repr

/-- Side effects performed by the streaming run. -/
inductive Act where
  | readComp (name : String)
  | llmCall
  | toolDispatch (name : String)
deriving DecidableEq, Repr

/-- One item of the interleaved run trace. -/
inductive TraceItem where
  | ev (e : Ev)
  | act (a : Act)
deriving DecidableEq, Repr

/-- Outcome of processing the tool-use blocks of one turn: an early
`return` on the defining write, a raised exception, or the collected
tool results. -/
inductive BlocksOut where
  | early (r : ToolResult)
  | raised (e : String)
  | done (rs : List (String × ToolResult))
deriving DecidableEq, Repr

/-- Processing the content blocks of one `tool_use` turn
(component_agent.py lines 209-227 for create, 355-374 for edit):
dispatch each tool-use block in order; `return result` as soon as a
`successTool` dispatch reports success, skipping the remaining blocks. -/
def processBlocks (successTool : String) :
    List Block → Store → BlocksOut × Store
  | [], store => (.done [], store)
  | .text _ :: rest, store => processBlocks successTool rest store
  | .toolUse tname tinput tid :: rest, store =>
    match process_tool_call tname tinput store with
    | .error e => (.raised e, store)
    | .ok (r, store') =>
      if tname = successTool ∧ r.status = "success" then (.early r, store')
      else
        match processBlocks successTool rest store' with
        | (.early r', s') => (.early r', s')
        | (.raised e, s') => (.raised e, s')
        | (.done rs, s') => (.done ((tid, r) :: rs), s')

/-- The corrective user turn of `generate_component`
(component_agent.py line 258). -/
def genCorrection : String :=
  "Please use the create_component tool to save the component code. Don\x27t just describe it - actually call the tool with the component code."

/-- The corrective user turn of `edit_component_streaming`
(component_agent.py line 134). -/
def editCorrection : String :=
  "Please use the update_component tool to save the modified component code. Don\x27t just describe it - actually call the tool with the component code."

/-- The seeded user turn of `generate_component`
(component_agent.py lines 169-181). -/
def genPromptText (component_name prompt : String) : String :=
  "Create a React TypeScript component named \x27" ++ component_name ++
  "\x27 based on this description:\n\n" ++ prompt ++
  "\n\nRequirements:\n- Use TypeScript with proper type definitions\n- Use Tailwind CSS for all styling\n- Make it a functional component with export default\n- Make it responsive and accessible\n- Include any necessary props with TypeScript interfaces\n- Use modern React patterns (hooks if needed)\n\nIMPORTANT: You must use the create_component tool to save the component. Do not just describe the component - actually call the create_component tool with the full component code."

/-- The seeded user turn of `edit_component_streaming`
(component_agent.py lines 37-54). -/
def editPromptText (component_name edit_description existing_code : String) :
    String :=
  "Please edit the React TypeScript component \x27" ++ component_name ++
  "\x27 based on this description:\n\n" ++ edit_description ++
  "\n\nHere is the current component code:\n\n```tsx\n" ++ existing_code ++
  "\n```\n\nRequirements:\n- Maintain TypeScript with proper type definitions\n- Keep using Tailwind CSS for styling\n- Keep it as a functional component with export default\n- Preserve the core functionality while making the requested changes\n- Use modern React patterns\n\nIMPORTANT: You must use the update_component tool to save the modified component. Do not just describe the component - actually call the update_component tool with the full component code."

/-- The `while iteration < max_iterations` loop of `generate_component`
(component_agent.py lines 189-274), by recursion on the remaining
iterations.  The `end_turn` branch re-reads the target and treats an
existing component as success; otherwise it appends the corrective turn
and continues.  A raised exception is caught by the surrounding
try/except and reported as an error dict (line 277-280). -/
def genLoop (llm : List Msg → Response) (component_name : String) :
    Nat → List Msg → Store → ToolResult × Store
  | 0, _, store =>
    ({ status := "error",
       message := some "Component generation exceeded maximum iterations" },
     store)
  | fuel + 1, msgs, store =>
    let response := llm msgs
    if response.stop_reason = "tool_use" then
      let msgs1 := msgs ++ [Msg.assistant response.content]
      match processBlocks "create_component" response.content store with
      | (.early r, s') => (r, s')
      | (.raised e, s') =>
        ({ status := "error",
           message := some ("Error generating component: " ++ e) }, s')
      | (.done rs, s') =>
        genLoop llm component_name fuel (msgs1 ++ [Msg.toolResults rs]) s'
    else if response.stop_reason = "end_turn" then
      let check := read_component component_name store
      if check.status = "success" then (check, store)
      else
        genLoop llm component_name fuel
          (msgs ++ [Msg.assistant response.content, Msg.user genCorrection]) store
    else
      ({ status := "error",
         message :=
           some ("Component generation stopped unexpectedly: " ++
             response.stop_reason) }, store)

/-- component_agent.py `generate_component(prompt, component_name)`. -/
def generate_component (llm : List Msg → Response)
    (prompt component_name : String) (store : Store) : ToolResult × Store :=
  genLoop llm component_name 5 [Msg.user (genPromptText component_name prompt)]
    store

/-- Streaming variant of block processing
(component_agent.py lines 87-108): before each dispatch the generator
yields a `Calling tool: ...` progress event; a successful
`update_component` dispatch yields the success event and returns. -/
def procBlocksS (component_name : String) :
    List Block → Store → List TraceItem × BlocksOut × Store
  | [], store => ([], .done [], store)
  | .text _ :: rest, store => procBlocksS component_name rest store
  | .toolUse tname tinput tid :: rest, store =>
    let tr0 := [TraceItem.ev (.progress ("Calling tool: " ++ tname ++ "...")),
                TraceItem.act (.toolDispatch tname)]
    match process_tool_call tname tinput store with
    | .error e => (tr0, .raised e, store)
    | .ok (r, store') =>
      if tname = "update_component" ∧ r.status = "success" then
        (tr0 ++ [TraceItem.ev (.success ("Component \x27" ++ component_name ++
          "\x27 updated successfully!"))], .early r, store')
      else
        match procBlocksS component_name rest store' with
        | (tr1, out, s') => (tr0 ++ tr1, out, s')

/-- The agent loop of `edit_component_streaming`
(component_agent.py lines 64-147), producing the interleaved trace.
`i` is the 1-based iteration counter printed in the progress message.
A raised exception is converted by the enclosing try/except into a single
terminal error event (lines 149-150). -/
def editLoop (llm : List Msg → Response) (component_name existing_code : String) :
    Nat → Nat → List Msg → Store → List TraceItem × Store
  | 0, _, _, store =>
    ([TraceItem.ev (.error "Component edit exceeded maximum iterations")], store)
  | fuel + 1, i, msgs, store =>
    let tr0 := [TraceItem.ev (.progress ("Agent iteration " ++ toString i ++
                  "/5...")),
                TraceItem.act .llmCall]
    let response := llm msgs
    if response.stop_reason = "tool_use" then
      let msgs1 := msgs ++ [Msg.assistant response.content]
      match procBlocksS component_name response.content store with
      | (trB, .early _, s') => (tr0 ++ trB, s')
      | (trB, .raised e, s') =>
        (tr0 ++ trB ++
          [TraceItem.ev (.error ("Error editing component: " ++ e))], s')
      | (trB, .done rs, s') =>
        let rest := editLoop llm component_name existing_code fuel (i + 1)
          (msgs1 ++ [Msg.toolResults rs]) s'
        (tr0 ++ trB ++ rest.1, rest.2)
    else if response.stop_reason = "end_turn" then
      let check := read_component component_name store
      if check.status = "success" ∧ check.content ≠ some existing_code then
        (tr0 ++ [TraceItem.act (.readComp component_name),
          TraceItem.ev (.success ("Component \x27" ++ component_name ++
            "\x27 updated successfully!"))], store)
      else
        let rest := editLoop llm component_name existing_code fuel (i + 1)
          (msgs ++ [Msg.assistant response.content, Msg.user editCorrection])
          store
        (tr0 ++ [TraceItem.act (.readComp component_name),
          TraceItem.ev (.progress "Prompting agent to use tool...")] ++ rest.1,
         rest.2)
    else
      (tr0 ++ [TraceItem.ev (.error ("Agent stopped unexpectedly: " ++
        response.stop_reason))], store)

/-- component_agent.py `edit_component_streaming(component_name,
edit_description)`: the generator first reads the existing component
(line 23), only then yields the announcing progress event (line 31),
yields the start event and enters the loop. -/
def edit_component_streaming (llm : List Msg → Response)
    (component_name edit_description : String) (store : Store) :
    List TraceItem × Store :=
  let read_result := read_component component_name store
  if read_result.status ≠ "success" then
    (TraceItem.act (.readComp component_name) ::
      [TraceItem.ev (.error ("Component \x27" ++ component_name ++
        "\x27 not found"))], store)
  else
    let existing_code := read_result.content.getD ""
    let rest := editLoop llm component_name existing_code 5 1
      [Msg.user (editPromptText component_name edit_description existing_code)]
      store
    (TraceItem.act (.readComp component_name) ::
      TraceItem.ev (.progress ("Reading component \x27" ++ component_name ++
        "\x27...")) ::
      TraceItem.ev (.progress "Starting AI agent...") :: rest.1, rest.2)

/-! ## Store lemmas -/

theorem alookup_writeStore_self (name code : String) (store : Store) :
    alookup name (writeStore name code store) = some code := by
  induction store with
  | nil => simp [writeStore, alookup]
  | cons hd tl ih =>
    obtain ⟨n, c⟩ := hd
    by_cases h : n = name
    · simp [writeStore, h, alookup]
    · simp [writeStore, h, alookup, ih]

/-- Facts extracted from a successful `create_component`: the name guard
passed, the file did not exist, and the resulting store is the written
file. -/
theorem create_success_facts (name c : String) (store : Store)
    (h : (create_component name c store).1.status = "success") :
    ¬ (name = "" ∨ ¬ name.front.isUpper) ∧
      alookup name store = none ∧
      (create_component name c store).2 = writeStore name c store := by
  by_cases h1 : name = "" ∨ ¬ name.front.isUpper
  · rw [create_component, if_pos h1] at h
    simp at h
  · by_cases h2 : looksLikeProse prosePhrasesCreate c = true
    · rw [create_component, if_neg h1, if_pos h2] at h
      simp at h
    · by_cases h3 : hasCodePattern c = true
      · by_cases h4 : (alookup name store).isSome = true
        · rw [create_component, if_neg h1, if_neg h2,
            if_neg (not_not_intro h3), if_pos h4] at h
          simp at h
        · refine ⟨h1, ?_, ?_⟩
          · cases halk : alookup name store with
            | none => rfl
            | some v => exact absurd (by simp [halk]) h4
          · rw [create_component, if_neg h1, if_neg h2,
              if_neg (not_not_intro h3), if_neg h4]
      · rw [create_component, if_neg h1, if_neg h2, if_pos h3] at h
        simp at h

/-! ## Claim C2 -/

/-- Claim C2, counterexample: after a successful
`create("Button", "const Button = () => <button>Click</button>")`, the
second call `create("Button", "## Here is the button")` fails with the
explanatory-text (LooksLikeProse) error, not with AlreadyExists — the
content sanity checks run before the existence check, so the error is
not independent of the content of `c2`. -/
theorem create_twice_prose_counterexample :
    (create_component "Button" "const Button = () => <button>Click</button>"
        ([] : Store)).1.status = "success" ∧
      (create_component "Button" "## Here is the button"
          (create_component "Button"
            "const Button = () => <button>Click</button>" ([] : Store)).2).1.message
        = some proseMsg ∧
      proseMsg ≠ alreadyExistsMsg "Button" := by
  decide

/-- Claim C2 (amended): after a successful `create(name, c1)`, a second
`create(name, c2)` fails with AlreadyExists provided `c2` passes the
content sanity checks (no prose phrase, some code hallmark); for a `c2`
rejected by those checks the second call still fails, but with the
corresponding content error instead. -/
theorem create_twice_already_exists (name c1 c2 : String) (store : Store)
    (h : (create_component name c1 store).1.status = "success")
    (h2 : looksLikeProse prosePhrasesCreate c2 = false)
    (h3 : hasCodePattern c2 = true) :
    create_component name c2 (create_component name c1 store).2 =
      ({ status := "error", message := some (alreadyExistsMsg name) },
       (create_component name c1 store).2) := by
  obtain ⟨hname, _, hst⟩ := create_success_facts name c1 store h
  rw [hst]
  rw [create_component, if_neg hname, if_neg (by simp [h2]),
    if_neg (by simp [h3]), if_pos (by simp [alookup_writeStore_self])]

/-- Witness for `create_twice_already_exists` at concrete inputs. -/
theorem create_twice_already_exists_witness :
    create_component "Button" "const Button2 = () => null"
        (create_component "Button" "const Button = () => <button>Click</button>"
          ([] : Store)).2 =
      ({ status := "error", message := some (alreadyExistsMsg "Button") },
       (create_component "Button" "const Button = () => <button>Click</button>"
         ([] : Store)).2) :=
  create_twice_already_exists "Button"
    "const Button = () => <button>Click</button>" "const Button2 = () => null"
    ([] : Store) (by decide) (by decide) (by decide)

/-! ## Claim C3 -/

/-- Claim C3, counterexample: `update` on a name with no artifact does
not always yield NotFound — for code rejected by the content checks the
prose error is returned instead, because those checks run before the
existence check. -/
theorem update_missing_prose_counterexample :
    (update_component "Button" "## Here is the button" ([] : Store)).1.message
        = some proseMsg ∧
      proseMsg ≠ updateNotFoundMsg "Button" := by
  decide

/-- Claim C3 (amended): `update` on a nonexistent name never creates the
artifact (the store is unchanged for every code string), and it yields
the NotFound error provided the code passes the content sanity checks;
code rejected by those checks yields the corresponding content error
first. -/
theorem update_missing_not_found (name code : String) (store : Store)
    (h : alookup name store = none) :
    (update_component name code store).2 = store ∧
      (looksLikeProse prosePhrasesUpdate code = false →
        hasCodePattern code = true →
        update_component name code store =
          ({ status := "error", message := some (updateNotFoundMsg name) },
           store)) := by
  by_cases h1 : looksLikeProse prosePhrasesUpdate code = true
  · rw [update_component, if_pos h1]
    exact ⟨rfl, fun hcon _ => absurd h1 (by simp [hcon])⟩
  · by_cases h2 : hasCodePattern code = true
    · rw [update_component, if_neg h1, if_neg (not_not_intro h2),
        if_pos (by simp [h])]
      exact ⟨rfl, fun _ _ => rfl⟩
    · rw [update_component, if_neg h1, if_pos h2]
      exact ⟨rfl, fun _ hcon => absurd hcon h2⟩

/-- Witness for `update_missing_not_found` at concrete inputs. -/
theorem update_missing_not_found_witness :
    (update_component "Button" "const Button = () => null" ([] : Store)).2
        = ([] : Store) ∧
      (looksLikeProse prosePhrasesUpdate "const Button = () => null" = false →
        hasCodePattern "const Button = () => null" = true →
        update_component "Button" "const Button = () => null" ([] : Store) =
          ({ status := "error",
             message := some (updateNotFoundMsg "Button") }, ([] : Store))) :=
  update_missing_not_found "Button" "const Button = () => null" ([] : Store)
    (by decide)

/-! ## Claim C8 -/

/-- Claim C8 (confirmed): for an existing artifact and code rejected by
the content sanity checks, `update` returns the corresponding error
(LooksLikeProse or NotRecognizableAsCode), the store is unchanged, and a
subsequent `read` still returns exactly the previous content. -/
theorem update_rejected_changes_nothing (name code old : String) (store : Store)
    (hmem : alookup name store = some old)
    (hrej : looksLikeProse prosePhrasesUpdate code = true ∨
      hasCodePattern code = false) :
    (update_component name code store).1.status = "error" ∧
      ((update_component name code store).1.message = some proseMsg ∨
        (update_component name code store).1.message = some notCodeMsg) ∧
      (update_component name code store).2 = store ∧
      (read_component name (update_component name code store).2).content
        = some old := by
  have hread : (read_component name store).content = some old := by
    rw [read_component, hmem]
  by_cases h1 : looksLikeProse prosePhrasesUpdate code = true
  · rw [update_component, if_pos h1]
    exact ⟨rfl, Or.inl rfl, rfl, hread⟩
  · rcases hrej with hp | hc
    · exact absurd hp h1
    · rw [update_component, if_neg h1, if_pos (by simp [hc])]
      exact ⟨rfl, Or.inr rfl, rfl, hread⟩

/-- Witness for `update_rejected_changes_nothing` at concrete inputs. -/
theorem update_rejected_changes_nothing_witness :
    (update_component "Button" "## Here is the button"
        [("Button", "const Button = () => <button>Click</button>")]).1.status
        = "error" ∧
      ((update_component "Button" "## Here is the button"
          [("Button", "const Button = () => <button>Click</button>")]).1.message
          = some proseMsg ∨
        (update_component "Button" "## Here is the button"
          [("Button", "const Button = () => <button>Click</button>")]).1.message
          = some notCodeMsg) ∧
      (update_component "Button" "## Here is the button"
          [("Button", "const Button = () => <button>Click</button>")]).2 =
        [("Button", "const Button = () => <button>Click</button>")] ∧
      (read_component "Button"
          (update_component "Button" "## Here is the button"
            [("Button", "const Button = () => <button>Click</button>")]).2).content
        = some "const Button = () => <button>Click</button>" :=
  update_rejected_changes_nothing "Button" "## Here is the button"
    "const Button = () => <button>Click</button>"
    [("Button", "const Button = () => <button>Click</button>")]
    (by decide) (Or.inl (by decide))

/-! ## Claim C5 -/

/-- Claim C5, counterexample: `process_tool_call` is not total over all
argument mappings — dispatching `create_component` with an empty
arguments mapping evaluates `tool_input["name"]` outside any try/except
and raises `KeyError` to the caller instead of returning a ToolResult. -/
theorem process_tool_call_keyerror_counterexample :
    process_tool_call "create_component" [] ([] : Store) =
      Except.error "\x27name\x27" := rfl

/-- Claim C5 (amended): provided the arguments mapping contains the
tool's required arguments (per the TOOLS schema), `process_tool_call`
returns a ToolResult and never raises; in particular an unknown tool
name yields the UnknownTool error result.  Without the required
arguments the dict accesses raise `KeyError`. -/
theorem process_tool_call_total (t : String) (inp : List (String × String))
    (store : Store) (h : requiredArgsPresent t inp = true) :
    (∃ r s, process_tool_call t inp store = .ok (r, s)) ∧
      (t ∉ knownToolNames →
        process_tool_call t inp store =
          .ok ({ status := "error",
                 message := some ("Unknown tool: " ++ t) }, store)) := by
  by_cases h1 : t = "create_component"
  · rw [requiredArgsPresent, if_pos (Or.inl h1)] at h
    obtain ⟨hn, hc⟩ := Bool.and_eq_true_iff.mp h
    obtain ⟨n, hn⟩ := Option.isSome_iff_exists.mp hn
    obtain ⟨c, hc⟩ := Option.isSome_iff_exists.mp hc
    refine ⟨⟨(create_component n c store).1, (create_component n c store).2,
      ?_⟩, fun hmem => absurd (by simp [knownToolNames, h1]) hmem⟩
    rw [process_tool_call, if_pos h1, hn, hc]
  · by_cases h2 : t = "update_component"
    · rw [requiredArgsPresent, if_pos (Or.inr h2)] at h
      obtain ⟨hn, hc⟩ := Bool.and_eq_true_iff.mp h
      obtain ⟨n, hn⟩ := Option.isSome_iff_exists.mp hn
      obtain ⟨c, hc⟩ := Option.isSome_iff_exists.mp hc
      refine ⟨⟨(update_component n c store).1, (update_component n c store).2,
        ?_⟩, fun hmem => absurd (by simp [knownToolNames, h2]) hmem⟩
      rw [process_tool_call, if_neg h1, if_pos h2, hn, hc]
    · by_cases h3 : t = "read_component"
      · rw [requiredArgsPresent, if_neg (by simp [h1, h2]), if_pos h3] at h
        obtain ⟨n, hn⟩ := Option.isSome_iff_exists.mp h
        refine ⟨⟨read_component n store, store, ?_⟩,
          fun hmem => absurd (by simp [knownToolNames, h3]) hmem⟩
        rw [process_tool_call, if_neg h1, if_neg h2, if_pos h3, hn]
      · by_cases h4 : t = "list_components"
        · refine ⟨⟨list_components store, store, ?_⟩,
            fun hmem => absurd (by simp [knownToolNames, h4]) hmem⟩
          rw [process_tool_call, if_neg h1, if_neg h2, if_neg h3, if_pos h4]
        · have heq : process_tool_call t inp store =
              .ok ({ status := "error",
                     message := some ("Unknown tool: " ++ t) }, store) := by
            rw [process_tool_call, if_neg h1, if_neg h2, if_neg h3, if_neg h4]
          exact ⟨⟨_, _, heq⟩, fun _ => heq⟩

/-- Witness for `process_tool_call_total` at a concrete unknown tool. -/
theorem process_tool_call_total_witness :
    (∃ r s, process_tool_call "delete_component"
        [("name", "Button")] ([] : Store) = .ok (r, s)) ∧
      ("delete_component" ∉ knownToolNames →
        process_tool_call "delete_component" [("name", "Button")] ([] : Store) =
          .ok ({ status := "error",
                 message := some ("Unknown tool: " ++ "delete_component") },
            ([] : Store))) :=
  process_tool_call_total "delete_component" [("name", "Button")] ([] : Store)
    (by decide)

/-! ## Claim C6 -/

theorem alookup_append {β : Type} (k : String) (a b : List (String × β)) :
    alookup k (a ++ b) =
      match alookup k a with
      | some v => some v
      | none => alookup k b := by
  induction a with
  | nil => simp [alookup]
  | cons hd tl ih =>
    obtain ⟨k1, v1⟩ := hd
    by_cases h : k1 = k
    · simp [alookup, h]
    · simp [alookup, h, ih]

theorem alookup_insertNew (acc : List SVEntry) (e : SVEntry) (k : String) :
    alookup k (insertNew acc e) =
      match alookup k acc with
      | some v => some v
      | none => if e.1 = k then some e.2 else none := by
  rw [insertNew]
  by_cases hs : (alookup e.1 acc).isSome = true
  · rw [if_pos hs]
    cases hacc : alookup k acc with
    | some v => simp
    | none =>
      by_cases he : e.1 = k
      · subst he
        rw [hacc] at hs
        simp at hs
      · simp [he]
  · rw [if_neg hs, alookup_append]
    cases hacc : alookup k acc with
    | some v => simp
    | none =>
      obtain ⟨e1, e2⟩ := e
      simp [alookup]

theorem alookup_foldl_insertNew (l : List SVEntry) (acc : List SVEntry)
    (k : String) :
    alookup k (List.foldl insertNew acc l) =
      match alookup k acc with
      | some v => some v
      | none => alookup k l := by
  induction l generalizing acc with
  | nil =>
    simp only [List.foldl_nil]
    cases hacc : alookup k acc with
    | some v => simp
    | none => simp [alookup]
  | cons e l ih =>
    simp only [List.foldl_cons]
    rw [ih, alookup_insertNew]
    cases hacc : alookup k acc with
    | some v => simp
    | none =>
      obtain ⟨e1, e2⟩ := e
      by_cases he : e1 = k
      · simp [he, alookup]
      · simp [he, alookup]

/-- The keys of an `SVEntry` table, with no duplicates. -/
def KeysNodup (l : List SVEntry) : Prop := (l.map Prod.fst).Nodup

theorem alookup_none_iff_keys {β : Type} (k : String) (l : List (String × β)) :
    alookup k l = none ↔ k ∉ l.map Prod.fst := by
  induction l with
  | nil => simp [alookup]
  | cons hd tl ih =>
    obtain ⟨k1, v1⟩ := hd
    by_cases h : k1 = k
    · simp [alookup, h]
    · simp [alookup, h, ih, Ne.symm h]

theorem keysNodup_insertNew (acc : List SVEntry) (e : SVEntry)
    (h : KeysNodup acc) : KeysNodup (insertNew acc e) := by
  rw [insertNew]
  by_cases hs : (alookup e.1 acc).isSome = true
  · rw [if_pos hs]
    exact h
  · rw [if_neg hs]
    have hnone : alookup e.1 acc = none := by
      cases hacc : alookup e.1 acc with
      | none => rfl
      | some v => exact absurd (by simp [hacc]) hs
    have hmem : e.1 ∉ acc.map Prod.fst :=
      (alookup_none_iff_keys e.1 acc).mp hnone
    unfold KeysNodup at h ⊢
    simp [List.nodup_append, h, hmem]

theorem keysNodup_foldl (l : List SVEntry) (acc : List SVEntry)
    (h : KeysNodup acc) : KeysNodup (List.foldl insertNew acc l) := by
  induction l generalizing acc with
  | nil => exact h
  | cons e l ih => exact ih (insertNew acc e) (keysNodup_insertNew acc e h)

theorem filter_key_eq_of_alookup (l : List SVEntry) (k : String)
    (v : String × JsonV) (hnd : KeysNodup l) (h : alookup k l = some v) :
    l.filter (fun e => e.1 = k) = [(k, v)] := by
  induction l with
  | nil => simp [alookup] at h
  | cons hd tl ih =>
    obtain ⟨k1, v1⟩ := hd
    unfold KeysNodup at hnd
    simp only [List.map_cons, List.nodup_cons] at hnd
    by_cases hk : k1 = k
    · subst hk
      rw [alookup, if_pos rfl] at h
      cases h
      have htl : tl.filter (fun e => e.1 = k1) = [] := by
        rw [List.filter_eq_nil_iff]
        intro a ha hcontra
        exact hnd.1 (by
          simp only [decide_eq_true_eq] at hcontra
          exact hcontra ▸ List.mem_map_of_mem Prod.fst ha)
      simp [List.filter, htl]
    · rw [alookup, if_neg hk] at h
      have := ih hnd.2 h
      simp [List.filter, hk, this]

/-- Claim C6 (confirmed): when several state-variable specs across the
layout declare the same name, the merged `all_state_vars` table keeps
exactly one entry for that name, carrying the type and initialValue of
the first occurrence in layout order (`alookup` returns the first
occurrence of the flattened traversal), and the synthesized page emits
exactly that one `useState` declaration line for the name; later
duplicates are dropped. -/
theorem state_merge_first_wins (layout : List LayoutItem) (name ty0 : String)
    (v0 : JsonV)
    (h : alookup name (allStateOccurrences layout) = some (ty0, v0)) :
    alookup name (collectStateVars layout) = some (ty0, v0) ∧
      (collectStateVars layout).filter (fun e => e.1 = name) = [(name, ty0, v0)] ∧
      declLine (name, ty0, v0) ∈ stateDeclLines layout := by
  have hlk : alookup name (collectStateVars layout) = some (ty0, v0) := by
    rw [collectStateVars, alookup_foldl_insertNew]
    simpa [alookup] using h
  have hnd : KeysNodup (collectStateVars layout) :=
    keysNodup_foldl _ _ (by simp [KeysNodup])
  have hfil := filter_key_eq_of_alookup _ _ _ hnd hlk
  refine ⟨hlk, hfil, ?_⟩
  have hmem : ((name, ty0, v0) : SVEntry) ∈ collectStateVars layout := by
    have : ((name, ty0, v0) : SVEntry) ∈
        (collectStateVars layout).filter (fun e => e.1 = name) := by
      rw [hfil]
      exact List.mem_singleton.mpr rfl
    exact List.mem_of_mem_filter this
  exact List.mem_map_of_mem declLine hmem

/-- A two-item layout whose interactions both declare a state variable
named `count`, with different initial values (0 first, 5 second). -/
def dupCountLayout : List LayoutItem :=
  [{ componentName := some "Counter", id := some "c1", x := 0, y := 0,
     width := none, height := none,
     interactions :=
       [{ ty := "onClick", handlerName := "handleInc",
          code := "const handleInc = () => \x7b\x7d",
          state :=
            [{ name := some "count", ty := some "number",
               initialValue := JsonV.num 0 }] }] },
   { componentName := some "Badge", id := some "c2", x := 1, y := 1,
     width := none, height := none,
     interactions :=
       [{ ty := "onClick", handlerName := "handleReset",
          code := "const handleReset = () => \x7b\x7d",
          state :=
            [{ name := some "count", ty := some "number",
               initialValue := JsonV.num 5 }] }] }]

/-- Witness for `state_merge_first_wins`: on `dupCountLayout` the first
declaration of `count` (initial value 0) wins. -/
theorem state_merge_first_wins_witness :
    alookup "count" (collectStateVars dupCountLayout)
        = some ("number", JsonV.num 0) ∧
      (collectStateVars dupCountLayout).filter (fun e => e.1 = "count")
        = [("count", "number", JsonV.num 0)] ∧
      declLine ("count", "number", JsonV.num 0) ∈ stateDeclLines dupCountLayout :=
  state_merge_first_wins dupCountLayout "count" "number" (JsonV.num 0)
    (by decide)

/-! ## Claim C7 -/

/-- The sorted import list does not depend on the enumeration order of
the `imports` set: any two permutations of the collected names sort to
the same list. -/
theorem sortedImports_perm (l1 l2 : List String) (h : l1.Perm l2) :
    sortedImports l1 = sortedImports l2 := by
  unfold sortedImports
  exact List.eq_of_perm_of_sorted
    ((List.perm_insertionSort _ _).trans
      ((h.dedup).trans (List.perm_insertionSort _ _).symm))
    (List.sorted_insertionSort _ _) (List.sorted_insertionSort _ _)

/-- Claim C7 (confirmed): layout synthesis is deterministic.  The
synthesis is a pure function of `(pageName, layout)`; in particular the
one source of nondeterminism in the source — the iteration order of the
Python `imports` set — is neutralised by `sorted(imports)`: the emitted
page is identical for every enumeration order of the collected component
names, and two runs on the same input are byte-identical. -/
theorem create_page_deterministic (p : String) (layout : List LayoutItem)
    (enum : List String) (h : enum.Perm (importNames layout)) :
    create_page_code_enum p layout enum = create_page_code p layout ∧
      create_page_code p layout = create_page_code p layout := by
  refine ⟨?_, rfl⟩
  rw [create_page_code, create_page_code_enum, create_page_code_enum,
    sortedImports_perm enum (importNames layout) h]

/-- A two-item layout importing `Button` and `Card`. -/
def twoCompLayout : List LayoutItem :=
  [{ componentName := some "Button", id := some "b1", x := 10, y := 20,
     width := none, height := none, interactions := [] },
   { componentName := some "Card", id := some "k1", x := 30, y := 40,
     width := some 200, height := some 100, interactions := [] }]

/-- Witness for `create_page_deterministic`: the reversed set enumeration
of the two imports produces the identical page text. -/
theorem create_page_deterministic_witness :
    create_page_code_enum "Home" twoCompLayout ["Card", "Button"] =
      create_page_code "Home" twoCompLayout ∧
      create_page_code "Home" twoCompLayout =
        create_page_code "Home" twoCompLayout :=
  create_page_deterministic "Home" twoCompLayout ["Card", "Button"] (by decide)

/-! ## Claim C10 -/

theorem toDigitsCore_length_ge (b : Nat) :
    ∀ (fuel n : Nat) (ds : List Char), 0 < fuel →
      ds.length + 1 ≤ (Nat.toDigitsCore b fuel n ds).length := by
  intro fuel
  induction fuel with
  | zero => intro n ds h; omega
  | succ f ih =>
    intro n ds _
    rw [Nat.toDigitsCore]
    by_cases hnb : n / b = 0
    · simp [hnb]
    · rw [if_neg hnb]
      cases f with
      | zero => simp [Nat.toDigitsCore]
      | succ g =>
        have := ih (n / b) (Nat.digitChar (n % b) :: ds) (Nat.succ_pos g)
        simp only [List.length_cons] at this
        omega

theorem natRepr_ne_zero (n : Nat) (h : n ≠ 0) : Nat.repr n ≠ "0" := by
  intro heq
  rw [Nat.repr] at heq
  have hdata : Nat.toDigits 10 n = ['0'] := by
    have := congrArg String.data heq
    simpa [List.asString] using this
  rw [Nat.toDigits] at hdata
  by_cases hlt : n < 10
  · have hdiv : n / 10 = 0 := Nat.div_eq_of_lt hlt
    rw [Nat.toDigitsCore, if_pos hdiv] at hdata
    have hmod : n % 10 = n := Nat.mod_eq_of_lt hlt
    rw [hmod] at hdata
    have hforall : ∀ m, m < 10 → m ≠ 0 → Nat.digitChar m ≠ '0' := by decide
    exact hforall n hlt h (by injection hdata)
  · push_neg at hlt
    have hdiv : n / 10 ≠ 0 := by
      have h1 : 10 ≤ n := hlt
      have : 1 ≤ n / 10 := (Nat.one_le_div_iff (by norm_num)).mpr h1
      omega
    rw [Nat.toDigitsCore, if_neg hdiv] at hdata
    have hge := toDigitsCore_length_ge 10 n (n / 10)
      [Nat.digitChar (n % 10)] (by omega)
    have hlen := congrArg List.length hdata
    simp only [List.length_cons, List.length_singleton, List.length_nil] at hlen hge
    omega

theorem intToString_ne_zero (w : Int) (h : w ≠ 0) : toString w ≠ "0" := by
  cases w with
  | ofNat m =>
    have hm : m ≠ 0 := by simpa using h
    have he : toString (Int.ofNat m) = Nat.repr m := rfl
    rw [he]
    exact natRepr_ne_zero m hm
  | negSucc m =>
    have he : toString (Int.negSucc m) = "-" ++ Nat.repr (m + 1) := rfl
    rw [he]
    intro hcon
    have hd := congrArg String.data hcon
    rw [String.data_append] at hd
    have e1 : ("-" : String).data = ['-'] := rfl
    rw [e1, List.singleton_append] at hd
    injection hd with h1 _
    exact absurd h1 (by decide)

theorem str_head_ne (a b : String) (h : a.data.head? ≠ b.data.head?) :
    a ≠ b := fun he => h (he ▸ rfl)

theorem head_append_of_cons (p : String) (c : Char) (cs : List Char)
    (hp : p.data = c :: cs) (s : String) :
    (p ++ s).data.head? = some c := by
  rw [String.data_append, hp, List.cons_append]
  rfl

theorem widthZero_ne_left (s : String) :
    ("width: 0" : String) ≠ "left: " ++ s := by
  apply str_head_ne
  rw [head_append_of_cons "left: " 'l' ['e','f','t',':',' '] rfl]
  decide

theorem widthZero_ne_top (s : String) :
    ("width: 0" : String) ≠ "top: " ++ s := by
  apply str_head_ne
  rw [head_append_of_cons "top: " 't' ['o','p',':',' '] rfl]
  decide

theorem widthZero_ne_height (s : String) :
    ("width: 0" : String) ≠ "height: " ++ s := by
  apply str_head_ne
  rw [head_append_of_cons "height: " 'h' ['e','i','g','h','t',':',' '] rfl]
  decide

theorem heightZero_ne_left (s : String) :
    ("height: 0" : String) ≠ "left: " ++ s := by
  apply str_head_ne
  rw [head_append_of_cons "left: " 'l' ['e','f','t',':',' '] rfl]
  decide

theorem heightZero_ne_top (s : String) :
    ("height: 0" : String) ≠ "top: " ++ s := by
  apply str_head_ne
  rw [head_append_of_cons "top: " 't' ['o','p',':',' '] rfl]
  decide

theorem heightZero_ne_width (s : String) :
    ("height: 0" : String) ≠ "width: " ++ s := by
  apply str_head_ne
  rw [head_append_of_cons "width: " 'w' ['i','d','t','h',':',' '] rfl]
  decide

theorem widthZero_ne_width (w : Int) (h : w ≠ 0) :
    ("width: 0" : String) ≠ "width: " ++ toString w := by
  intro heq
  have hd := congrArg String.data heq
  rw [String.data_append] at hd
  have e0 : ("width: 0" : String).data =
      ("width: " : String).data ++ ("0" : String).data := rfl
  rw [e0] at hd
  exact intToString_ne_zero w h (String.ext (List.append_cancel_left hd)).symm

theorem heightZero_ne_height (w : Int) (h : w ≠ 0) :
    ("height: 0" : String) ≠ "height: " ++ toString w := by
  intro heq
  have hd := congrArg String.data heq
  rw [String.data_append] at hd
  have e0 : ("height: 0" : String).data =
      ("height: " : String).data ++ ("0" : String).data := rfl
  rw [e0] at hd
  exact intToString_ne_zero w h (String.ext (List.append_cancel_left hd)).symm

/-- Claim C10 (confirmed): in layout synthesis a `width` or `height`
whose value is 0 is omitted from the wrapper's inline style exactly as if
`size` were absent (the presence test is Python truthiness), so no
layout item ever contributes a `width: 0` or `height: 0` style fragment
(the emitted style string is the `", "`-join of `styleParts`). -/
theorem style_zero_dimension_omitted (item : LayoutItem) :
    styleParts { item with width := some 0 } =
        styleParts { item with width := none } ∧
      styleParts { item with height := some 0 } =
        styleParts { item with height := none } ∧
      "width: 0" ∉ styleParts item ∧
      "height: 0" ∉ styleParts item := by
  refine ⟨by simp [styleParts], by simp [styleParts], ?_, ?_⟩
  · intro hmem
    rw [styleParts] at hmem
    rcases List.mem_append.mp hmem with h2 | hB
    · rcases List.mem_cons.mp h2 with hL | h3
      · exact widthZero_ne_left _ hL
      · rcases List.mem_cons.mp h3 with hT | hA
        · exact widthZero_ne_top _ hT
        · cases hw : item.width with
          | none => rw [hw] at hA; simp at hA
          | some w =>
            rw [hw] at hA
            by_cases h0 : w = 0
            · subst h0; simp at hA
            · simp [h0] at hA
              exact widthZero_ne_width w h0 hA
    · cases hh : item.height with
      | none => rw [hh] at hB; simp at hB
      | some hv =>
        rw [hh] at hB
        by_cases h0 : hv = 0
        · subst h0; simp at hB
        · simp [h0] at hB
          exact widthZero_ne_height _ hB
  · intro hmem
    rw [styleParts] at hmem
    rcases List.mem_append.mp hmem with h2 | hB
    · rcases List.mem_cons.mp h2 with hL | h3
      · exact heightZero_ne_left _ hL
      · rcases List.mem_cons.mp h3 with hT | hA
        · exact heightZero_ne_top _ hT
        · cases hw : item.width with
          | none => rw [hw] at hA; simp at hA
          | some w =>
            rw [hw] at hA
            by_cases h0 : w = 0
            · subst h0; simp at hA
            · simp [h0] at hA
              exact heightZero_ne_width _ hA
    · cases hh : item.height with
      | none => rw [hh] at hB; simp at hB
      | some hv =>
        rw [hh] at hB
        by_cases h0 : hv = 0
        · subst h0; simp at hB
        · simp [h0] at hB
          exact heightZero_ne_height hv h0 hB

/-! ## Claim C1 -/

/-- An LLM that always asks to create a component named `Card`,
regardless of the task's target. -/
def llmWriteCard : List Msg → Response := fun _ =>
  { stop_reason := "tool_use",
    content := [Block.toolUse "create_component"
      [("name", "Card"), ("code", "const Card = () => null")] "toolu_01"] }

/-- Claim C1, counterexample: the success check in the agent loop
compares only the tool name and the result status, not the component
name, so a run targeting `Button` transitions to Success after a
successful `create_component` of `Card`, with `Button` never written. -/
theorem generate_success_other_name_counterexample :
    (generate_component llmWriteCard "a button" "Button" ([] : Store)).1.status
        = "success" ∧
      (generate_component llmWriteCard "a button" "Button"
          ([] : Store)).1.component_name = some "Card" ∧
      alookup "Button"
          (generate_component llmWriteCard "a button" "Button" ([] : Store)).2
        = none := by
  decide

theorem processBlocks_done_append (successTool : String) (post : List Block)
    (tname tid : String) (tinput : List (String × String)) (r : ToolResult)
    (hTool : tname = successTool) (hst : r.status = "success") :
    ∀ (pre : List Block) (store store1 s2 : Store)
      (rs : List (String × ToolResult)),
      processBlocks successTool pre store = (.done rs, store1) →
      process_tool_call tname tinput store1 = .ok (r, s2) →
      processBlocks successTool
        (pre ++ Block.toolUse tname tinput tid :: post) store = (.early r, s2)
  | [], store, store1, s2, rs, hpre, hdisp => by
    rw [processBlocks] at hpre
    cases hpre
    simp only [List.nil_append, processBlocks]
    rw [hdisp]
    simp [hTool, hst]
  | .text s :: pre, store, store1, s2, rs, hpre, hdisp => by
    rw [processBlocks] at hpre
    simpa only [List.cons_append, processBlocks] using
      processBlocks_done_append successTool post tname tid tinput r hTool hst
        pre store store1 s2 rs hpre hdisp
  | .toolUse tn ti td :: pre, store, store1, s2, rs, hpre, hdisp => by
    rw [processBlocks] at hpre
    simp only [List.cons_append, processBlocks]
    cases hd0 : process_tool_call tn ti store with
    | error e =>
      simp only [hd0] at hpre
      simp at hpre
    | ok pr =>
      obtain ⟨r0, store0⟩ := pr
      simp only [hd0] at hpre ⊢
      by_cases hcond : tn = successTool ∧ r0.status = "success"
      · rw [if_pos hcond] at hpre
        simp at hpre
      · rw [if_neg hcond] at hpre
        rw [if_neg hcond]
        cases hrec : processBlocks successTool pre store0 with
        | mk out sX =>
          rw [hrec] at hpre
          cases out with
          | early r1 => simp at hpre
          | raised e1 => simp at hpre
          | done rs0 =>
            simp only [Prod.mk.injEq, BlocksOut.done.injEq] at hpre
            obtain ⟨-, hsx⟩ := hpre
            rw [List.append_eq,
              processBlocks_done_append successTool post tname tid tinput r
                hTool hst pre store0 store1 s2 rs0 (by rw [hrec, hsx]) hdisp]

theorem genLoop_early_step (llm : List Msg → Response)
    (component_name : String) (fuel : Nat) (msgs : List Msg) (st s2 : Store)
    (r : ToolResult) (h1 : (llm msgs).stop_reason = "tool_use")
    (h2 : processBlocks "create_component" (llm msgs).content st =
      (.early r, s2)) :
    genLoop llm component_name (fuel + 1) msgs st = (r, s2) := by
  rw [genLoop, if_pos h1, h2]

theorem editLoop_early_step (llm : List Msg → Response)
    (component_name existing_code : String) (fuel i : Nat) (msgs : List Msg)
    (st s2 : Store) (trB : List TraceItem) (r : ToolResult)
    (h1 : (llm msgs).stop_reason = "tool_use")
    (h2 : procBlocksS component_name (llm msgs).content st =
      (trB, .early r, s2)) :
    editLoop llm component_name existing_code (fuel + 1) i msgs st =
      ([TraceItem.ev (.progress ("Agent iteration " ++ toString i ++ "/5...")),
        TraceItem.act .llmCall] ++ trB, s2) := by
  rw [editLoop, if_pos h1, h2]

/-- Claim C1 (amended): in the tool_use step, the loop transitions to
Success immediately as soon as any dispatched `create_component`
(creation runs) / `update_component` (edit runs) result reports success,
regardless of which component name was written — the name is not
compared against the task's target — and the remaining tool calls of the
turn are not processed (the early result and store ignore `post`). -/
theorem tool_use_success_any_name (successTool : String)
    (pre post : List Block) (tname tid : String)
    (tinput : List (String × String)) (store store1 s2 : Store)
    (rs : List (String × ToolResult)) (r : ToolResult)
    (hpre : processBlocks successTool pre store = (.done rs, store1))
    (hdisp : process_tool_call tname tinput store1 = .ok (r, s2))
    (hTool : tname = successTool) (hst : r.status = "success") :
    processBlocks successTool
        (pre ++ Block.toolUse tname tinput tid :: post) store =
      (.early r, s2) ∧
      (∀ (llm : List Msg → Response) (component_name : String) (fuel : Nat)
        (msgs : List Msg) (st sE : Store) (rE : ToolResult),
        (llm msgs).stop_reason = "tool_use" →
        processBlocks "create_component" (llm msgs).content st =
          (.early rE, sE) →
        genLoop llm component_name (fuel + 1) msgs st = (rE, sE)) ∧
      (∀ (llm : List Msg → Response) (component_name existing_code : String)
        (fuel i : Nat) (msgs : List Msg) (st sE : Store)
        (trB : List TraceItem) (rE : ToolResult),
        (llm msgs).stop_reason = "tool_use" →
        procBlocksS component_name (llm msgs).content st =
          (trB, .early rE, sE) →
        editLoop llm component_name existing_code (fuel + 1) i msgs st =
          ([TraceItem.ev (.progress ("Agent iteration " ++ toString i ++
              "/5...")), TraceItem.act .llmCall] ++ trB, sE)) :=
  ⟨processBlocks_done_append successTool post tname tid tinput r hTool hst pre
      store store1 s2 rs hpre hdisp,
   fun llm cn fuel msgs st sE rE h1 h2 =>
     genLoop_early_step llm cn fuel msgs st sE rE h1 h2,
   fun llm cn ec fuel i msgs st sE trB rE h1 h2 =>
     editLoop_early_step llm cn ec fuel i msgs st sE trB rE h1 h2⟩

/-- Witness for `tool_use_success_any_name`: one preceding
`read_component` call, then a successful `create_component` of `Card`,
followed by a further block that is skipped. -/
theorem tool_use_success_any_name_witness :
    processBlocks "create_component"
        ([Block.toolUse "read_component" [("name", "Card")] "t0"] ++
          Block.toolUse "create_component"
            [("name", "Card"), ("code", "const Card = () => null")] "t1" ::
            [Block.toolUse "create_component"
              [("name", "Extra"), ("code", "const Extra = () => null")] "t2"])
        ([] : Store) =
      (.early ((create_component "Card" "const Card = () => null"
        ([] : Store)).1),
       (create_component "Card" "const Card = () => null" ([] : Store)).2) ∧
      (∀ (llm : List Msg → Response) (component_name : String) (fuel : Nat)
        (msgs : List Msg) (st sE : Store) (rE : ToolResult),
        (llm msgs).stop_reason = "tool_use" →
        processBlocks "create_component" (llm msgs).content st =
          (.early rE, sE) →
        genLoop llm component_name (fuel + 1) msgs st = (rE, sE)) ∧
      (∀ (llm : List Msg → Response) (component_name existing_code : String)
        (fuel i : Nat) (msgs : List Msg) (st sE : Store)
        (trB : List TraceItem) (rE : ToolResult),
        (llm msgs).stop_reason = "tool_use" →
        procBlocksS component_name (llm msgs).content st =
          (trB, .early rE, sE) →
        editLoop llm component_name existing_code (fuel + 1) i msgs st =
          ([TraceItem.ev (.progress ("Agent iteration " ++ toString i ++
              "/5...")), TraceItem.act .llmCall] ++ trB, sE)) :=
  tool_use_success_any_name "create_component"
    [Block.toolUse "read_component" [("name", "Card")] "t0"]
    [Block.toolUse "create_component"
      [("name", "Extra"), ("code", "const Extra = () => null")] "t2"]
    "create_component" "t1"
    [("name", "Card"), ("code", "const Card = () => null")] ([] : Store)
    ([] : Store)
    (create_component "Card" "const Card = () => null" ([] : Store)).2
    [("t0", read_component "Card" ([] : Store))]
    (create_component "Card" "const Card = () => null" ([] : Store)).1
    rfl rfl rfl (by decide)

/-! ## Claim C4 -/

/-- Recognizer for the LLM-call actions of a streaming trace. -/
def isLlmAct : TraceItem → Bool
  | .act .llmCall => true
  | _ => false

theorem getLast?_cons_some {α : Type} (a : α) (l : List α) (x : α)
    (h : l.getLast? = some x) : (a :: l).getLast? = some x := by
  cases l with
  | nil => simp at h
  | cons b t => rw [List.getLast?_cons_cons]; exact h

theorem genLoop_end_turn_exhausts (llm : List Msg → Response) (name : String)
    (hllm : ∀ msgs, (llm msgs).stop_reason = "end_turn") :
    ∀ (fuel : Nat) (msgs : List Msg) (store : Store),
      alookup name store = none →
      genLoop llm name fuel msgs store =
        ({ status := "error",
           message := some "Component generation exceeded maximum iterations" },
         store) := by
  intro fuel
  induction fuel with
  | zero => intro msgs store _; rfl
  | succ fuel ih =>
    intro msgs store hstore
    have hrc : (read_component name store).status = "error" := by
      rw [read_component, hstore]
    simp only [genLoop]
    rw [hllm msgs, if_neg (by decide : ¬("end_turn" = "tool_use")),
      if_pos rfl, if_neg (by rw [hrc]; decide)]
    exact ih _ store hstore

theorem editLoop_end_turn_exhausts (llm : List Msg → Response)
    (name ex : String)
    (hllm : ∀ msgs, (llm msgs).stop_reason = "end_turn") :
    ∀ (fuel i : Nat) (msgs : List Msg) (store : Store),
      alookup name store = some ex →
      (editLoop llm name ex fuel i msgs store).2 = store ∧
        ((editLoop llm name ex fuel i msgs store).1.filter isLlmAct).length
          = fuel ∧
        (editLoop llm name ex fuel i msgs store).1.getLast? =
          some (.ev (.error "Component edit exceeded maximum iterations")) := by
  intro fuel
  induction fuel with
  | zero => intro i msgs store _; exact ⟨rfl, rfl, rfl⟩
  | succ fuel ih =>
    intro i msgs store hstore
    have hrc : read_component name store =
        { status := "success", component_name := some name,
          content := some ex } := by
      rw [read_component, hstore]
    have hcond : ¬((read_component name store).status = "success" ∧
        (read_component name store).content ≠ some ex) := by
      rw [hrc]
      simp
    simp only [editLoop]
    rw [hllm msgs, if_neg (by decide : ¬("end_turn" = "tool_use")),
      if_pos rfl, if_neg hcond]
    obtain ⟨ih1, ih2, ih3⟩ := ih (i + 1)
      (msgs ++ [Msg.assistant (llm msgs).content, Msg.user editCorrection])
      store hstore
    refine ⟨ih1, ?_, ?_⟩
    · simp only [List.filter_append, List.length_append, ih2]
      simp [isLlmAct, List.filter]
      omega
    · rw [List.getLast?_append, List.getLast?_append, ih3]
      rfl

/-- Claim C4 (confirmed): a run in which every LLM turn returns
`end_turn` and the target artifact is never created or changed terminates
in the IterationsExhausted failure after exactly `max_iterations = 5`
LLM turns (the streaming trace contains exactly five LLM-call actions,
one per iteration), never looping indefinitely — the loop is structurally
bounded by its fuel. -/
theorem agent_loop_iterations_exhausted (llm : List Msg → Response)
    (prompt gname desc ename ecode : String) (gstore estore : Store)
    (hllm : ∀ msgs, (llm msgs).stop_reason = "end_turn")
    (hg : alookup gname gstore = none)
    (he : alookup ename estore = some ecode) :
    generate_component llm prompt gname gstore =
      ({ status := "error",
         message := some "Component generation exceeded maximum iterations" },
       gstore) ∧
      ((edit_component_streaming llm ename desc estore).1.filter
        isLlmAct).length = 5 ∧
      (edit_component_streaming llm ename desc estore).1.getLast? =
        some (.ev (.error "Component edit exceeded maximum iterations")) ∧
      (edit_component_streaming llm ename desc estore).2 = estore := by
  have hgen := genLoop_end_turn_exhausts llm gname hllm 5
    [Msg.user (genPromptText gname prompt)] gstore hg
  have hrc : read_component ename estore =
      { status := "success", component_name := some ename,
        content := some ecode } := by
    rw [read_component, he]
  have hedit : edit_component_streaming llm ename desc estore =
      (TraceItem.act (.readComp ename) ::
        TraceItem.ev (.progress ("Reading component \x27" ++ ename ++
          "\x27...")) ::
        TraceItem.ev (.progress "Starting AI agent...") ::
        (editLoop llm ename ecode 5 1
          [Msg.user (editPromptText ename desc ecode)] estore).1,
       (editLoop llm ename ecode 5 1
         [Msg.user (editPromptText ename desc ecode)] estore).2) := by
    rw [edit_component_streaming, hrc]
    simp
  obtain ⟨hl1, hl2, hl3⟩ := editLoop_end_turn_exhausts llm ename ecode hllm 5 1
    [Msg.user (editPromptText ename desc ecode)] estore he
  refine ⟨hgen, ?_, ?_, ?_⟩
  · rw [hedit]
    simp only [List.filter, isLlmAct]
    exact hl2
  · rw [hedit]
    exact getLast?_cons_some _ _ _ (getLast?_cons_some _ _ _
      (getLast?_cons_some _ _ _ hl3))
  · rw [hedit]
    exact hl1

/-- An LLM stub that always finishes with `end_turn` and no content. -/
def llmEndTurn : List Msg → Response := fun _ =>
  { stop_reason := "end_turn", content := [] }

/-- Witness for `agent_loop_iterations_exhausted` at concrete inputs. -/
theorem agent_loop_iterations_exhausted_witness :
    generate_component llmEndTurn "a button" "Button" ([] : Store) =
      ({ status := "error",
         message := some "Component generation exceeded maximum iterations" },
       ([] : Store)) ∧
      ((edit_component_streaming llmEndTurn "Card" "make it red"
          [("Card", "const Card = () => null")]).1.filter
        isLlmAct).length = 5 ∧
      (edit_component_streaming llmEndTurn "Card" "make it red"
          [("Card", "const Card = () => null")]).1.getLast? =
        some (.ev (.error "Component edit exceeded maximum iterations")) ∧
      (edit_component_streaming llmEndTurn "Card" "make it red"
          [("Card", "const Card = () => null")]).2 =
        [("Card", "const Card = () => null")] :=
  agent_loop_iterations_exhausted llmEndTurn "a button" "Button" "make it red"
    "Card" "const Card = () => null" ([] : Store)
    [("Card", "const Card = () => null")] (fun _ => rfl) rfl (by decide)

/-! ## Claim C9 -/

/-- The property asserted by the claim: every executed action of the
streaming run is preceded (at a strictly earlier trace position) by some
progress event. -/
def announcedBefore (tr : List TraceItem) : Prop :=
  ∀ (i : Nat) (a : Act), tr[i]? = some (TraceItem.act a) →
    ∃ j, j < i ∧ ∃ m, tr[j]? = some (TraceItem.ev (Ev.progress m))

/-- Claim C9, counterexample: the very first item of the streaming trace
is the initial `read_component` side effect (component_agent.py line 23),
executed before any event — in particular before the announcing
`Reading component ...` progress event of line 31 — so the run's actions
are not all announced in advance. -/
theorem edit_streaming_unannounced_read_counterexample :
    ¬ announcedBefore (edit_component_streaming llmEndTurn "Card"
      "make it red" [("Card", "const Card = () => null")]).1 := by
  intro h
  obtain ⟨j, hj, -⟩ := h 0 (Act.readComp "Card") rfl
  omega

/-- Adjacency discipline of the amended claim: an LLM call must be
immediately preceded by a progress event, a tool dispatch by the progress
event announcing exactly that tool; any other item is unconstrained. -/
def okPair : TraceItem → TraceItem → Prop :=
  fun x y =>
    match y with
    | .act .llmCall => ∃ m, x = TraceItem.ev (Ev.progress m)
    | .act (.toolDispatch t) =>
        x = TraceItem.ev (Ev.progress ("Calling tool: " ++ t ++ "..."))
    | _ => True

/-- Items that may follow anything. -/
def benign (y : TraceItem) : Prop := ∀ x, okPair x y

theorem benign_ev (e : Ev) : benign (TraceItem.ev e) := fun _ => trivial

theorem benign_read (n : String) : benign (TraceItem.act (Act.readComp n)) :=
  fun _ => trivial

theorem chain'_append_benign {l1 l2 : List TraceItem}
    (h1 : List.Chain' okPair l1) (h2 : List.Chain' okPair l2)
    (hb : ∀ y, l2.head? = some y → benign y) :
    List.Chain' okPair (l1 ++ l2) := by
  rw [List.chain'_append]
  exact ⟨h1, h2, fun x _ y hy => hb y hy x⟩

theorem procBlocksS_chain (name : String) :
    ∀ (blocks : List Block) (store : Store),
      List.Chain' okPair (procBlocksS name blocks store).1 ∧
        ∀ y, (procBlocksS name blocks store).1.head? = some y → benign y
  | [], store => by
    simp only [procBlocksS]
    exact ⟨List.chain'_nil, fun y hy => by simp at hy⟩
  | .text s :: rest, store => by
    simp only [procBlocksS]
    exact procBlocksS_chain name rest store
  | .toolUse tn ti tid :: rest, store => by
    simp only [procBlocksS]
    cases hd : process_tool_call tn ti store with
    | error e =>
      simp only [hd]
      refine ⟨?_, fun y hy => by cases hy; exact benign_ev _⟩
      exact List.chain'_cons.mpr ⟨rfl, List.chain'_singleton _⟩
    | ok pr =>
      obtain ⟨r0, store0⟩ := pr
      simp only [hd]
      by_cases hcond : tn = "update_component" ∧ r0.status = "success"
      · rw [if_pos hcond]
        refine ⟨?_, fun y hy => by cases hy; exact benign_ev _⟩
        exact List.chain'_cons.mpr ⟨rfl,
          List.chain'_cons.mpr ⟨trivial, List.chain'_singleton _⟩⟩
      · rw [if_neg hcond]
        obtain ⟨hc, hb⟩ := procBlocksS_chain name rest store0
        cases hrec : procBlocksS name rest store0 with
        | mk tr1 rest2 =>
          rw [hrec] at hc hb
          refine ⟨?_, fun y hy => by cases hy; exact benign_ev _⟩
          refine chain'_append_benign ?_ hc hb
          exact List.chain'_cons.mpr ⟨rfl, List.chain'_singleton _⟩

theorem editLoop_chain (llm : List Msg → Response) (name ex : String) :
    ∀ (fuel i : Nat) (msgs : List Msg) (store : Store),
      List.Chain' okPair (editLoop llm name ex fuel i msgs store).1 ∧
        ∀ y, (editLoop llm name ex fuel i msgs store).1.head? = some y →
          benign y := by
  intro fuel
  induction fuel with
  | zero =>
    intro i msgs store
    exact ⟨List.chain'_singleton _, fun y hy => by cases hy; exact benign_ev _⟩
  | succ fuel ih =>
    intro i msgs store
    simp only [editLoop]
    by_cases h1 : (llm msgs).stop_reason = "tool_use"
    · rw [if_pos h1]
      obtain ⟨hcB, hbB⟩ := procBlocksS_chain name ((llm msgs).content) store
      cases hrec : procBlocksS name ((llm msgs).content) store with
      | mk trB rest2 =>
        rw [hrec] at hcB hbB
        obtain ⟨out, s'⟩ := rest2
        have htr0 : List.Chain' okPair
            [TraceItem.ev (.progress ("Agent iteration " ++ toString i ++
              "/5...")), TraceItem.act .llmCall] :=
          List.chain'_cons.mpr ⟨⟨_, rfl⟩, List.chain'_singleton _⟩
        cases out with
        | early r =>
          exact ⟨chain'_append_benign htr0 hcB hbB,
            fun y hy => by cases hy; exact benign_ev _⟩
        | raised e =>
          refine ⟨?_, fun y hy => by cases hy; exact benign_ev _⟩
          refine chain'_append_benign (chain'_append_benign htr0 hcB hbB)
            (List.chain'_singleton _) ?_
          intro y hy
          cases hy
          exact benign_ev _
        | done rs =>
          obtain ⟨hcR, hbR⟩ := ih (i + 1)
            (msgs ++ [Msg.assistant (llm msgs).content] ++ [Msg.toolResults rs])
            s'
          refine ⟨?_, fun y hy => by cases hy; exact benign_ev _⟩
          exact chain'_append_benign (chain'_append_benign htr0 hcB hbB) hcR hbR
    · rw [if_neg h1]
      by_cases h2 : (llm msgs).stop_reason = "end_turn"
      · rw [if_pos h2]
        by_cases h3 : (read_component name store).status = "success" ∧
            (read_component name store).content ≠ some ex
        · rw [if_pos h3]
          refine ⟨?_, fun y hy => by cases hy; exact benign_ev _⟩
          exact List.chain'_cons.mpr ⟨⟨_, rfl⟩, List.chain'_cons.mpr
            ⟨trivial, List.chain'_cons.mpr
              ⟨trivial, List.chain'_singleton _⟩⟩⟩
        · rw [if_neg h3]
          obtain ⟨hcR, hbR⟩ := ih (i + 1)
            (msgs ++ [Msg.assistant (llm msgs).content, Msg.user editCorrection])
            store
          refine ⟨?_, fun y hy => by cases hy; exact benign_ev _⟩
          refine chain'_append_benign ?_ hcR hbR
          exact List.chain'_cons.mpr ⟨⟨_, rfl⟩, List.chain'_cons.mpr
            ⟨trivial, List.chain'_cons.mpr
              ⟨trivial, List.chain'_singleton _⟩⟩⟩
      · rw [if_neg h2]
        refine ⟨?_, fun y hy => by cases hy; exact benign_ev _⟩
        exact List.chain'_cons.mpr ⟨⟨_, rfl⟩, List.chain'_cons.mpr
          ⟨trivial, List.chain'_singleton _⟩⟩

/-- Claim C9 (amended): in the streaming run every LLM call is
immediately preceded by its announcing `Agent iteration ...` progress
event and every tool dispatch by its `Calling tool: ...` progress event
(the trace satisfies the `okPair` adjacency discipline throughout), but
the initial read of the target component is the very first trace item:
it executes before any event, in particular before the `Reading
component ...` progress event that announces it. -/
theorem progress_precedes_calls (llm : List Msg → Response)
    (name desc : String) (store : Store) :
    List.Chain' okPair (edit_component_streaming llm name desc store).1 ∧
      (edit_component_streaming llm name desc store).1.head? =
        some (TraceItem.act (Act.readComp name)) := by
  rw [edit_component_streaming]
  by_cases h : (read_component name store).status ≠ "success"
  · rw [if_pos h]
    exact ⟨List.chain'_cons.mpr ⟨trivial, List.chain'_singleton _⟩, rfl⟩
  · rw [if_neg h]
    obtain ⟨hcL, hbL⟩ := editLoop_chain llm name
      ((read_component name store).content.getD "") 5 1
      [Msg.user (editPromptText name desc
        ((read_component name store).content.getD ""))] store
    refine ⟨?_, rfl⟩
    refine List.chain'_cons.mpr ⟨trivial, ?_⟩
    refine List.chain'_cons.mpr ⟨trivial, ?_⟩
    rw [List.chain'_cons']
    exact ⟨fun y hy => hbL y hy _, hcL⟩
